import Mathlib

/-!
Verification of the peer-a-boo monitoring core against its specification.

The definitions below are shallow embeddings of the TypeScript sources:
* `src/motion-detection.ts` — the motion analyzer (grayscale conversion,
  Laplacian high-pass motion score, per-tick processing, alert debounce,
  threshold clamping, pause handling);
* `src/utils.ts` — the audio level meter (A-weighted RMS level, alert
  debounce, `setThreshold`, `stop`), and the decaying display meter;
* `src/parent-station.ts` — the connection session's retry scheduling
  (`scheduleRetry`, `attemptCall`, `cleanup`, `getNextDelay`).

JavaScript numbers are modelled as exact rationals (`ℚ`) except where the
source computes with `Math.sqrt`/`Math.log10`/`Math.pow`, which are modelled
over `ℝ`.  Times (`Date.now()` milliseconds) are modelled as `ℤ`.
-/

namespace PeerABoo

/-! ### Motion detection: frames, grayscale, quantized previous-frame store -/

/-- A pixel as the motion detector reads it: the byte values at offsets
0, 1, 2 of the RGBA image data (the alpha byte is never read). -/
abbrev Pixel := ℕ × ℕ × ℕ

/-- A linear buffer of rational samples together with its length, modelling a
JavaScript `Float32Array` (values read through `data`, length through `len`). -/
structure Buf where
  len : ℕ
  data : ℕ → ℚ

/-- `toGrayscale` from `motion-detection.ts`: per pixel,
`(0.299*R + 0.587*G + 0.114*B) / 255`. -/
def toGrayscale (n : ℕ) (frame : ℕ → Pixel) : Buf :=
  ⟨n, fun i =>
    (299/1000 * ((frame i).1 : ℚ) +
     587/1000 * ((frame i).2.1 : ℚ) +
     114/1000 * ((frame i).2.2 : ℚ)) / 255⟩

/-- JavaScript `Math.round` on the non-negative values produced here:
round half away from zero, i.e. `⌊x + 1/2⌋`. -/
def jsRound (q : ℚ) : ℤ := ⌊q + 1/2⌋

/-- Storing an integer into a `Uint8ClampedArray` clamps it to `[0, 255]`. -/
def clampByte (z : ℤ) : ℤ := max 0 (min 255 z)

/-- A buffer of stored bytes, modelling the `Uint8ClampedArray` that keeps the
previous frame. -/
structure ByteBuf where
  len : ℕ
  data : ℕ → ℤ

/-- The previous-frame store in `processFrame`:
`previousFrameData[i] = Math.round(currentGray[i] * 255)` into a
`Uint8ClampedArray`. -/
def storePrev (b : Buf) : ByteBuf :=
  ⟨b.len, fun i => clampByte (jsRound (b.data i * 255))⟩

/-- Reading the previous frame back in `processFrame`:
`previousGray[i] = previousFrameData[i] / 255`. -/
def loadPrev (pb : ByteBuf) : Buf :=
  ⟨pb.len, fun i => (pb.data i : ℚ) / 255⟩

/-- `applyLaplacian` from `motion-detection.ts`: on interior pixels
(`1 ≤ y < height-1`, `1 ≤ x < width-1`, with `y = i / width`, `x = i % width`)
the absolute value of `4*d[i] - d[i-1] - d[i+1] - d[i-width] - d[i+width]`;
all other entries of the result stay `0`. -/
def applyLaplacian (width height : ℕ) (d : ℕ → ℚ) : ℕ → ℚ := fun i =>
  if 1 ≤ i / width ∧ i / width < height - 1 ∧ 1 ≤ i % width ∧ i % width < width - 1
  then |4 * d i - d (i - 1) - d (i + 1) - d (i - width) - d (i + width)|
  else 0

/-- `calculateMotionScore` from `motion-detection.ts`: zero on a length
mismatch, otherwise the mean of the Laplacian-filtered absolute
frame difference. -/
def calculateMotionScore (width height : ℕ) (current previous : Buf) : ℚ :=
  if current.len ≠ previous.len then 0
  else
    (∑ i ∈ Finset.range current.len,
      applyLaplacian width height (fun j => |current.data j - previous.data j|) i)
    / (current.len : ℚ)

/-- The motion score `processFrame` computes on the second of two identical
consecutive processed frames: the current grayscale buffer is exact, while
the previous one went through the 8-bit `Uint8ClampedArray` store. -/
def motionScoreOnRepeat (width height : ℕ) (frame : ℕ → Pixel) : ℚ :=
  calculateMotionScore width height (toGrayscale (width * height) frame)
    (loadPrev (storePrev (toGrayscale (width * height) frame)))

/-! ### Motion detection: per-tick state machine -/

/-- `MotionDetectorConfig` from `motion-detection.ts`. -/
structure MotionConfig where
  sampleWidth : ℕ
  sampleHeight : ℕ
  frameSkip : ℕ
  stabilizationFrames : ℕ
  alertCooldownMs : ℤ

/-- `DEFAULT_CONFIG` from `motion-detection.ts`. -/
def defaultMotionConfig : MotionConfig :=
  ⟨160, 120, 2, 10, 2000⟩

/-- The closure state of `createMotionDetector`: `previousFrameData`,
`frameCount`, `skipCounter`, `threshold`, `paused`, `lastAlertTime`,
`isRunning`. -/
structure MotionState where
  prev : Option ByteBuf
  frameCount : ℕ
  skipCounter : ℕ
  threshold : ℚ
  paused : Bool
  lastAlertTime : ℤ
  isRunning : Bool

/-- The state right after `start()`: `frameCount = 0`, `skipCounter = 0`,
`previousFrameData = null`, `lastAlertTime = 0`, initial `threshold = 0.05`,
not paused, running. -/
def motionInit : MotionState :=
  ⟨none, 0, 0, 1/20, false, 0, true⟩

/-- A callback invocation made by one `processFrame` tick:
`onMotionLevel(v)` or `onMotionAlert()`. -/
inductive MotionCb where
  | level (v : ℚ)
  | alert
deriving DecidableEq

/-- The alert guard on line 194 of `motion-detection.ts`:
`motionScore > threshold && now - lastAlertTime > cfg.alertCooldownMs`. -/
def motionAlertFires (cooldownMs : ℤ) (threshold : ℚ) (lastAlertTime now : ℤ)
    (score : ℚ) : Bool :=
  if threshold < score ∧ cooldownMs < now - lastAlertTime then true else false

/-- One `processFrame` tick.  `videoReady` stands for
`video.readyState ≥ 2 && !video.paused`; `now` is `Date.now()`.  Returns the
next closure state and the callbacks invoked during the tick, in order. -/
def motionTick (cfg : MotionConfig) (s : MotionState) (videoReady : Bool)
    (frame : ℕ → Pixel) (now : ℤ) : MotionState × List MotionCb :=
  if s.isRunning = false then (s, [])
  else
    let s1 : MotionState := { s with skipCounter := s.skipCounter + 1 }
    if s1.skipCounter ≤ cfg.frameSkip then (s1, [])
    else
      let s2 : MotionState := { s1 with skipCounter := 0 }
      if videoReady = false ∨ s2.paused = true then (s2, [])
      else
        let currentGray := toGrayscale (cfg.sampleWidth * cfg.sampleHeight) frame
        let s3 : MotionState := { s2 with frameCount := s2.frameCount + 1 }
        if s3.frameCount ≤ cfg.stabilizationFrames then
          ({ s3 with prev := some (storePrev currentGray) }, [MotionCb.level 0])
        else
          match s3.prev with
          | some pb =>
              let motionScore :=
                calculateMotionScore cfg.sampleWidth cfg.sampleHeight
                  currentGray (loadPrev pb)
              let displayLevel := min 1 (motionScore * 10)
              if motionAlertFires cfg.alertCooldownMs s3.threshold
                  s3.lastAlertTime now motionScore then
                ({ s3 with prev := some (storePrev currentGray),
                           lastAlertTime := now },
                 [MotionCb.level displayLevel, MotionCb.alert])
              else
                ({ s3 with prev := some (storePrev currentGray) },
                 [MotionCb.level displayLevel])
          | none => ({ s3 with prev := some (storePrev currentGray) }, [])

/-- `setThreshold` from `motion-detection.ts`:
`threshold = Math.max(0.01, Math.min(0.5, newThreshold))`. -/
def motionSetThreshold (newThreshold : ℚ) : ℚ :=
  max (1/100) (min (1/2) newThreshold)

/-- `setPaused` from `motion-detection.ts`: sets the flag and, when pausing,
discards the stored previous frame and resets the stabilization counter. -/
def motionSetPaused (s : MotionState) (isPaused : Bool) : MotionState :=
  let s1 : MotionState := { s with paused := isPaused }
  if isPaused then { s1 with prev := none, frameCount := 0 } else s1

/-- A runtime control applied between ticks of one motion-detector run. -/
inductive MotionCtrl where
  | setThreshold (x : ℚ)
  | setPaused (p : Bool)

/-- Applying one runtime control to the motion state. -/
def motionApplyCtrl (s : MotionState) : MotionCtrl → MotionState
  | .setThreshold x => { s with threshold := motionSetThreshold x }
  | .setPaused p => motionSetPaused s p

/-- One tick's worth of input to the motion detector: controls issued since
the previous tick, the video readiness flag, the frame, and `Date.now()`. -/
structure MotionInput where
  ctrls : List MotionCtrl
  videoReady : Bool
  frame : ℕ → Pixel
  now : ℤ

/-- The times at which `onMotionAlert` fires along a run of the detector. -/
def motionRunAlerts (cfg : MotionConfig) (s : MotionState) :
    List MotionInput → List ℤ
  | [] => []
  | inp :: rest =>
      (if MotionCb.alert ∈ (motionTick cfg (inp.ctrls.foldl motionApplyCtrl s)
          inp.videoReady inp.frame inp.now).2 then [inp.now] else [])
        ++ motionRunAlerts cfg (motionTick cfg (inp.ctrls.foldl motionApplyCtrl s)
          inp.videoReady inp.frame inp.now).1 rest

/-! ### Audio level meter (`createAudioLevelMeter` in `utils.ts`) -/

/-- `computeAWeightGain` from `utils.ts`: the A-weighting approximation,
`0` below 10 Hz, otherwise `10 ^ ((20·log10(num/denom) + 2) / 20)`. -/
noncomputable def computeAWeightGain (f : ℝ) : ℝ :=
  if f < 10 then 0
  else
    let f2 := f * f
    let f4 := f2 * f2
    let num := 12194 * 12194 * f4
    let denom := (f2 + 20.6 * 20.6)
      * Real.sqrt ((f2 + 107.7 * 107.7) * (f2 + 737.9 * 737.9))
      * (f2 + 12194 * 12194)
    let aWeightDb := 20 * Real.logb 10 (num / denom) + 2.0
    (10 : ℝ) ^ (aWeightDb / 20)

/-- `precomputeAWeights` from `utils.ts`: the gain of bin `i` at centre
frequency `(i + 0.5) * sampleRate / fftSize`; bins beyond `binCount` do not
exist in the array. -/
noncomputable def precomputeAWeights (binCount : ℕ) (sampleRate : ℝ)
    (fftSize : ℕ) : ℕ → ℝ := fun i =>
  if i < binCount then
    computeAWeightGain (((i : ℝ) + 0.5) * (sampleRate / (fftSize : ℝ)))
  else 0

/-- The level computed by the `update` closure of `createAudioLevelMeter`:
byte magnitudes are normalised by 255, squared and weighted, the RMS is taken
against the total weight (`weightTotal || 1`), scaled by 2.5 and clamped
to 1. -/
noncomputable def audioLevel (binCount : ℕ) (w : ℕ → ℝ) (m : ℕ → ℕ) : ℝ :=
  let weightedSum :=
    ∑ i ∈ Finset.range binCount, ((m i : ℝ) / 255) * ((m i : ℝ) / 255) * w i
  let weightTotal := ∑ i ∈ Finset.range binCount, w i
  let rms := Real.sqrt (weightedSum / (if weightTotal = 0 then 1 else weightTotal))
  min 1 (rms * 2.5)

/-- The unweighted root-mean-square of a byte spectrum, the reference
quantity of the specification's monotonicity property. -/
noncomputable def unweightedRms (binCount : ℕ) (m : ℕ → ℕ) : ℝ :=
  Real.sqrt ((∑ i ∈ Finset.range binCount, ((m i : ℝ) / 255) * ((m i : ℝ) / 255))
    / (binCount : ℝ))

/-- A spectrum with the single byte magnitude 51 in bin `j`. -/
def spikeSpectrum (j : ℕ) : ℕ → ℕ := fun i => if i = j then 51 else 0

/-- `setThreshold` of the audio level meter (`utils.ts` lines 365-367):
the incoming value is stored as-is, with no clamping. -/
def audioSetThreshold (threshold : ℝ) : ℝ := threshold

/-- The alert guard of the `update` closure (`utils.ts` lines 340-346):
`onAlert && !isPaused && level >= alertThreshold` and
`now - lastAlertTime >= alertCooldownMs`. -/
noncomputable def audioAlertFires (cooldownMs : ℤ) (threshold level : ℝ)
    (paused : Bool) (lastAlertTime now : ℤ) : Bool :=
  if paused = false ∧ threshold ≤ level ∧ cooldownMs ≤ now - lastAlertTime
  then true else false

/-- The mutable closure state of the audio level meter relevant to alerts. -/
structure AudioState where
  threshold : ℝ
  paused : Bool
  lastAlertTime : ℤ

/-- One `update` tick of the audio level meter: emit the level, and fire the
debounced alert when the guard passes. -/
noncomputable def audioTick (cooldownMs : ℤ) (binCount : ℕ) (w : ℕ → ℝ)
    (s : AudioState) (m : ℕ → ℕ) (now : ℤ) : AudioState × (ℝ × Bool) :=
  let level := audioLevel binCount w m
  if audioAlertFires cooldownMs s.threshold level s.paused s.lastAlertTime now
  then ({ s with lastAlertTime := now }, (level, true))
  else (s, (level, false))

/-- A runtime control applied between ticks of one audio-meter run. -/
inductive AudioCtrl where
  | setThreshold (x : ℝ)
  | setPaused (p : Bool)

/-- Applying one runtime control to the audio meter state. -/
def audioApplyCtrl (s : AudioState) : AudioCtrl → AudioState
  | .setThreshold x => { s with threshold := audioSetThreshold x }
  | .setPaused p => { s with paused := p }

/-- One tick's worth of input to the audio meter. -/
structure AudioInput where
  ctrls : List AudioCtrl
  spectrum : ℕ → ℕ
  now : ℤ

/-- The times at which `onAlert` fires along a run of the audio meter. -/
noncomputable def audioRunAlerts (cooldownMs : ℤ) (binCount : ℕ) (w : ℕ → ℝ)
    (s : AudioState) : List AudioInput → List ℤ
  | [] => []
  | inp :: rest =>
      (if (audioTick cooldownMs binCount w (inp.ctrls.foldl audioApplyCtrl s)
          inp.spectrum inp.now).2.2 then [inp.now] else [])
        ++ audioRunAlerts cooldownMs binCount w
          (audioTick cooldownMs binCount w (inp.ctrls.foldl audioApplyCtrl s)
            inp.spectrum inp.now).1 rest

/-! ### Audio meter teardown (`stop` in `createAudioLevelMeter`) -/

/-- The lifecycle state of the backing `AudioContext`. -/
inductive CtxState where
  | running
  | closed
deriving DecidableEq

/-- `AudioContext.close()`: transitions to `closed`; called on an already
closed context, the returned promise rejects with `InvalidStateError`
(second component `true`). -/
def closeCtx : CtxState → CtxState × Bool
  | .running => (.closed, false)
  | .closed => (.closed, true)

/-- The resource state owned by one audio level meter: the last
`requestAnimationFrame` id (never reset by `stop`), whether the source node
is connected, and the context state. -/
structure AudioMeterRes where
  animationId : Option ℕ
  sourceConnected : Bool
  ctx : CtxState
deriving DecidableEq

/-- The resource state while the meter runs. -/
def audioMeterRunning : AudioMeterRes :=
  ⟨some 1, true, .running⟩

/-- `stop` from `createAudioLevelMeter` (`utils.ts` lines 357-364): cancel
the animation frame if an id is recorded (the id itself is never cleared),
disconnect the source, and close the context unconditionally.  The boolean
reports whether the `close()` promise rejected. -/
def audioMeterStop (s : AudioMeterRes) : AudioMeterRes × Bool :=
  let s1 : AudioMeterRes := { s with sourceConnected := false }
  let r := closeCtx s1.ctx
  ({ s1 with ctx := r.1 }, r.2)

/-! ### Decaying meter (`createDecayingMeter` in `utils.ts`) -/

/-- The options of `createDecayingMeter`, with their defaults. -/
structure MeterConfig where
  decayResistance : ℚ
  sustainPeriod : ℚ
  minimumThreshold : ℚ
  warningThreshold : ℚ
  dangerThreshold : ℚ

/-- The default decaying-meter options. -/
def defaultMeterConfig : MeterConfig :=
  ⟨500, 250, 1/20, 1/2, 3/4⟩

/-- The approximate frame time `dt = 16.667` used by the decay interval. -/
def meterDt : ℚ := 16667/1000

/-- The mutable state of one decaying meter: `currentLevel` and
`lastPeakTime`. -/
structure MeterState where
  level : ℚ
  lastPeakTime : ℚ

/-- `update` of the decaying meter: snap up and record the peak time when the
new level is strictly larger, otherwise do nothing. -/
def meterUpdate (now newLevel : ℚ) (s : MeterState) : MeterState :=
  if newLevel > s.level then ⟨newLevel, now⟩ else s

/-- One firing of the decay interval: hold while within the sustain period of
the last peak, otherwise decay linearly toward 0 when positive
(`decayRate = 1 / decayResistance`). -/
def meterTick (cfg : MeterConfig) (now : ℚ) (s : MeterState) : MeterState :=
  if s.lastPeakTime + cfg.sustainPeriod > now then s
  else if s.level > 0 then
    { s with level := max 0 (s.level - meterDt * (1 / cfg.decayResistance)) }
  else s

/-! ### Connection session retry machinery (`parent-station.ts`) -/

/-- `minDelay` from `parent-station.ts`. -/
def minDelay : ℚ := 5000

/-- `randomFactor` from `parent-station.ts`. -/
def randomFactor : ℚ := 1/2

/-- `getNextDelay` from `parent-station.ts`, with the `Math.random()` sample
passed explicitly: `minDelay + random * randomFactor * minDelay`. -/
def getNextDelay (random : ℚ) : ℚ :=
  minDelay + random * randomFactor * minDelay

/-- The retry-relevant state of one parent-station session: the multiset of
live (scheduled, not yet fired or cancelled) retry timers, the id stored in
the `retryTimeout` variable, a fresh-id counter, the `isCleaningUp` flag and
the `isConnected` flag. -/
structure SessionState where
  pending : List ℕ
  retryVar : Option ℕ
  nextId : ℕ
  cleaning : Bool
  connected : Bool

/-- The state right after `initParentStation` sets up its locals. -/
def sessionInit : SessionState :=
  ⟨[], none, 0, false, false⟩

/-- `scheduleRetry` from `parent-station.ts`: a no-op while cleaning up;
otherwise cancel the timer recorded in `retryTimeout` (if any) and schedule a
fresh one, storing its id. -/
def scheduleRetry (s : SessionState) : SessionState :=
  if s.cleaning then s
  else
    let p := match s.retryVar with
      | some i => s.pending.erase i
      | none => s.pending
    { s with pending := s.nextId :: p, retryVar := some s.nextId,
             nextId := s.nextId + 1 }

/-- `attemptCall` from `parent-station.ts`, with the peer's condition passed
in: recreate the peer when destroyed (no timer touched), re-schedule when the
peer is not yet open, otherwise place the call. -/
def attemptCall (peerDestroyed peerOpen : Bool) (s : SessionState) : SessionState :=
  if peerDestroyed then s
  else if peerOpen = false then scheduleRetry s
  else s

/-- `cleanup` from `parent-station.ts`: set `isCleaningUp`, then cancel and
clear the retry timer (the remaining teardown does not touch timers). -/
def sessionCleanup (s : SessionState) : SessionState :=
  let s1 : SessionState := { s with cleaning := true }
  match s1.retryVar with
  | some i => { s1 with pending := s1.pending.erase i, retryVar := none }
  | none => s1

/-- The external events driving the session's retry machinery. -/
inductive SessionEv where
  | callClose
  | callError
  | peerDisconnected
  | peerError
  | peerOpen (destroyed opn : Bool)
  | streamReceived
  | timerFire (i : ℕ) (destroyed opn : Bool)
  | teardown

/-- The session's reaction to one event, following the handlers registered in
`attemptCall` and `initPeer`: call `close`/`error` clear `isConnected` and
schedule a retry; `disconnected` schedules one only while not connected;
a peer error always schedules one; a timer can only fire while it is live,
and consumes itself before `attemptCall` runs. -/
def sessionStep (s : SessionState) : SessionEv → SessionState
  | .callClose => scheduleRetry { s with connected := false }
  | .callError => scheduleRetry { s with connected := false }
  | .peerDisconnected => if s.connected then s else scheduleRetry s
  | .peerError => scheduleRetry s
  | .peerOpen d o => attemptCall d o s
  | .streamReceived => { s with connected := true }
  | .timerFire i d o =>
      if i ∈ s.pending then attemptCall d o { s with pending := s.pending.erase i }
      else s
  | .teardown => sessionCleanup s

/-- Running the session from its initial state through a list of events. -/
def sessionRun (evs : List SessionEv) : SessionState :=
  evs.foldl sessionStep sessionInit

/-- The timer invariant: either no retry timer is live, or exactly the one
recorded in `retryTimeout` is. -/
def sessionInv (s : SessionState) : Prop :=
  s.pending = [] ∨ ∃ j, s.pending = [j] ∧ s.retryVar = some j

/-- A 3×3 test frame: black except for a pure red centre pixel. -/
def testFrame : ℕ → Pixel := fun i => if i = 4 then (255, 0, 0) else (0, 0, 0)

/-! ### Helper lemmas -/

theorem scheduleRetry_inv (s : SessionState) (hs : sessionInv s) :
    sessionInv (scheduleRetry s) := by
  unfold scheduleRetry
  split
  · exact hs
  · rcases hs with h | ⟨j, hp, hv⟩
    · refine Or.inr ⟨s.nextId, ?_, rfl⟩
      cases hr : s.retryVar <;> simp [h]
    · refine Or.inr ⟨s.nextId, ?_, rfl⟩
      rw [hv, hp]
      simp

theorem attemptCall_inv (d o : Bool) (s : SessionState) (hs : sessionInv s) :
    sessionInv (attemptCall d o s) := by
  unfold attemptCall
  split
  · exact hs
  · split
    · exact scheduleRetry_inv s hs
    · exact hs

theorem sessionCleanup_pending (s : SessionState) (hs : sessionInv s) :
    (sessionCleanup s).pending = [] := by
  unfold sessionCleanup
  rcases hs with h | ⟨j, hp, hv⟩
  · cases hr : s.retryVar <;> simp [h]
  · rw [hv, hp]
    simp

theorem sessionStep_inv (s : SessionState) (e : SessionEv) (hs : sessionInv s) :
    sessionInv (sessionStep s e) := by
  cases e with
  | callClose =>
      refine scheduleRetry_inv _ ?_
      rcases hs with h | ⟨j, hp, hv⟩
      · exact Or.inl h
      · exact Or.inr ⟨j, hp, hv⟩
  | callError =>
      refine scheduleRetry_inv _ ?_
      rcases hs with h | ⟨j, hp, hv⟩
      · exact Or.inl h
      · exact Or.inr ⟨j, hp, hv⟩
  | peerDisconnected =>
      show sessionInv (if s.connected = true then s else scheduleRetry s)
      split
      · exact hs
      · exact scheduleRetry_inv s hs
  | peerError => exact scheduleRetry_inv s hs
  | peerOpen d o => exact attemptCall_inv d o s hs
  | streamReceived =>
      rcases hs with h | ⟨j, hp, hv⟩
      · exact Or.inl h
      · exact Or.inr ⟨j, hp, hv⟩
  | timerFire i d o =>
      show sessionInv (if i ∈ s.pending then
        attemptCall d o { s with pending := s.pending.erase i } else s)
      split
      · rename_i hi
        rcases hs with h | ⟨j, hp, hv⟩
        · rw [h] at hi
          simp at hi
        · rw [hp] at hi
          have hij := List.mem_singleton.mp hi
          refine attemptCall_inv d o _ (Or.inl ?_)
          show s.pending.erase i = []
          rw [hp, hij]
          simp
      · exact hs
  | teardown =>
      exact Or.inl (sessionCleanup_pending s hs)

theorem sessionRun_inv (evs : List SessionEv) : sessionInv (sessionRun evs) := by
  have main : ∀ (l : List SessionEv) (s : SessionState),
      sessionInv s → sessionInv (l.foldl sessionStep s) := by
    intro l
    induction l with
    | nil => intro s hs; exact hs
    | cons e rest ih =>
        intro s hs
        exact ih _ (sessionStep_inv s e hs)
  exact main evs sessionInit (Or.inl rfl)

/-! ### Claims C4, C5, C7, C8, C9 -/

/-- Claim C4: at every reachable point of a session's lifetime at most one
retry timer is pending; two call `close` events in quick succession leave
exactly one pending retry timer; teardown always cancels any pending retry
timer. -/
theorem claim_C4 :
    (∀ evs : List SessionEv, (sessionRun evs).pending.length ≤ 1) ∧
    (sessionRun [SessionEv.callClose, SessionEv.callClose]).pending.length = 1 ∧
    (∀ evs : List SessionEv,
      (sessionRun (evs ++ [SessionEv.teardown])).pending = []) := by
  refine ⟨?_, ?_, ?_⟩
  · intro evs
    rcases sessionRun_inv evs with h | ⟨j, hp, _⟩
    · rw [h]; simp
    · rw [hp]; simp
  · rfl
  · intro evs
    have h1 : sessionRun (evs ++ [SessionEv.teardown])
        = sessionStep (sessionRun evs) SessionEv.teardown := by
      unfold sessionRun
      rw [List.foldl_append]
      rfl
    rw [h1]
    exact sessionCleanup_pending _ (sessionRun_inv evs)

/-- Claim C5: a scheduled retry delay is `5000 + random * 0.5 * 5000`, so for
every `Math.random()` sample in `[0, 1)` it lies in `[5000, 7500)` ms. -/
theorem claim_C5 (random : ℚ) (h0 : 0 ≤ random) (h1 : random < 1) :
    getNextDelay random = 5000 + random * (1/2) * 5000 ∧
    5000 ≤ getNextDelay random ∧ getNextDelay random < 7500 := by
  refine ⟨rfl, ?_, ?_⟩ <;>
    · unfold getNextDelay minDelay randomFactor
      nlinarith

/-- Witness for C5 at the concrete sample 1/2. -/
theorem claim_C5_witness :
    (0 : ℚ) ≤ 1/2 ∧ (1/2 : ℚ) < 1 ∧
    (5000 ≤ getNextDelay (1/2) ∧ getNextDelay (1/2) < 7500) :=
  ⟨by norm_num, by norm_num, (claim_C5 (1/2) (by norm_num) (by norm_num)).2⟩

/-- Claim C7, amended: the motion detector's `setThreshold` clamps every
input into `[0.01, 0.5]`, while the audio meter's `setThreshold` stores the
incoming value unchanged (it never clamps). -/
theorem claim_C7 :
    (∀ x : ℚ, 1/100 ≤ motionSetThreshold x ∧ motionSetThreshold x ≤ 1/2) ∧
    (∀ y : ℝ, audioSetThreshold y = y) := by
  refine ⟨fun x => ⟨le_max_left _ _, ?_⟩, fun y => rfl⟩
  exact max_le (by norm_num) (min_le_left _ _)

/-- Counterexample to C7 as stated: the audio meter's `setThreshold` stores
`-3` as `-3`, outside any valid threshold range, rather than clamping it. -/
theorem claim_C7_counterexample :
    audioSetThreshold (-3) = -3 ∧ ((-3 : ℝ) < 0) :=
  ⟨rfl, by norm_num⟩

/-- While every decay tick falls within the sustain period of the last peak,
the decaying meter's state does not change at all. -/
theorem meterHold (cfg : MeterConfig) (ts : List ℚ) :
    ∀ s : MeterState, (∀ t ∈ ts, t < s.lastPeakTime + cfg.sustainPeriod) →
      ts.foldl (fun s t => meterTick cfg t s) s = s := by
  induction ts with
  | nil => intro s _; rfl
  | cons t rest ih =>
      intro s h
      have ht : t < s.lastPeakTime + cfg.sustainPeriod := h t (by simp)
      have hstep : meterTick cfg t s = s := by
        unfold meterTick
        rw [if_pos (by linarith)]
      rw [List.foldl_cons, hstep]
      exact ih s fun u hu => h u (by simp [hu])

/-- Claim C8: after `update(x)` raises the level to `x`, an immediate
`update(y)` with `y < x` does not lower it, and every decay tick strictly
before `sustainPeriod` has elapsed since the peak leaves the displayed level
at `x`. -/
theorem claim_C8 (cfg : MeterConfig) (s0 : MeterState) (x y t0 t1 : ℚ)
    (ts : List ℚ) (hx : s0.level < x) (hy : y < x)
    (hts : ∀ t ∈ ts, t < t0 + cfg.sustainPeriod) :
    (ts.foldl (fun s t => meterTick cfg t s)
      (meterUpdate t1 y (meterUpdate t0 x s0))).level = x := by
  have h1 : meterUpdate t0 x s0 = ⟨x, t0⟩ := by
    unfold meterUpdate
    rw [if_pos hx]
  have h2 : meterUpdate t1 y (⟨x, t0⟩ : MeterState) = ⟨x, t0⟩ := by
    unfold meterUpdate
    rw [if_neg (not_lt.mpr (le_of_lt hy))]
  rw [h1, h2, meterHold cfg ts ⟨x, t0⟩ hts]

/-- Witness for C8: a peak of 1/2 at t=100, a lower update at t=110, decay
ticks at t=200 and t=300, all within the default 250 ms sustain period. -/
theorem claim_C8_witness :
    (0 : ℚ) < 1/2 ∧ (1/4 : ℚ) < 1/2 ∧
    (([200, 300] : List ℚ).foldl (fun s t => meterTick defaultMeterConfig t s)
      (meterUpdate 110 (1/4) (meterUpdate 100 (1/2) ⟨0, 0⟩))).level = 1/2 := by
  refine ⟨by norm_num, by norm_num,
    claim_C8 defaultMeterConfig ⟨0, 0⟩ (1/2) (1/4) 100 110 [200, 300]
      (by norm_num) (by norm_num) ?_⟩
  intro t ht
  rcases List.mem_cons.mp ht with rfl | ht
  · norm_num [defaultMeterConfig]
  · rcases List.mem_singleton.mp ht with rfl
    norm_num [defaultMeterConfig]

/-- Claim C9 (code bug): the first `stop` of an audio level meter closes the
context without a rejection, but a second `stop`, although it leaves the
resource state unchanged, calls `close()` on the already-closed context and
its promise rejects with `InvalidStateError`. -/
theorem claim_C9 :
    (audioMeterStop audioMeterRunning).2 = false ∧
    (audioMeterStop (audioMeterStop audioMeterRunning).1).2 = true ∧
    (audioMeterStop (audioMeterStop audioMeterRunning).1).1
      = (audioMeterStop audioMeterRunning).1 := by
  refine ⟨rfl, rfl, rfl⟩

/-! ### Claims C1, C3, C10 -/

theorem applyLaplacian_zero (width height i : ℕ) :
    applyLaplacian width height (fun _ => 0) i = 0 := by
  unfold applyLaplacian
  split <;> simp

/-- Claim C1, amended: for a pair of identical consecutive processed frames
whose per-pixel luminance `0.299R + 0.587G + 0.114B` is a whole number (for
example any frame with `R = G = B` everywhere), the motion score of the
second frame is exactly 0; in general the 8-bit quantization of the stored
previous frame makes the score of a repeated frame nonzero. -/
theorem claim_C1 (width height : ℕ) (frame : ℕ → Pixel)
    (hlum : ∀ i : ℕ, ∃ k : ℕ, k ≤ 255 ∧
      (toGrayscale (width * height) frame).data i * 255 = (k : ℚ)) :
    motionScoreOnRepeat width height frame = 0 := by
  unfold motionScoreOnRepeat calculateMotionScore
  rw [if_neg (by simp [toGrayscale, loadPrev, storePrev])]
  have hdiff : ∀ j : ℕ,
      |(toGrayscale (width * height) frame).data j
        - (loadPrev (storePrev (toGrayscale (width * height) frame))).data j|
      = 0 := by
    intro j
    obtain ⟨k, hk, hkv⟩ := hlum j
    have hgj : (toGrayscale (width * height) frame).data j = (k : ℚ) / 255 := by
      rw [eq_div_iff (by norm_num : (255 : ℚ) ≠ 0)]
      exact hkv
    have hround :
        jsRound ((toGrayscale (width * height) frame).data j * 255) = (k : ℤ) := by
      rw [hkv]
      unfold jsRound
      rw [Int.floor_eq_iff]
      constructor
      · push_cast
        linarith
      · push_cast
        linarith
    have hclamp : clampByte (k : ℤ) = (k : ℤ) := by
      unfold clampByte
      have h255 : (k : ℤ) ≤ 255 := by exact_mod_cast hk
      have h0 : (0 : ℤ) ≤ (k : ℤ) := Int.ofNat_nonneg k
      omega
    have hprevj :
        (loadPrev (storePrev (toGrayscale (width * height) frame))).data j
          = (toGrayscale (width * height) frame).data j := by
      show ((clampByte (jsRound
          ((toGrayscale (width * height) frame).data j * 255)) : ℤ) : ℚ) / 255
        = (toGrayscale (width * height) frame).data j
      rw [hround, hclamp, hgj]
      push_cast
      ring
    rw [hprevj]
    simp
  have hsum : ∀ i ∈ Finset.range (toGrayscale (width * height) frame).len,
      applyLaplacian width height
        (fun j => |(toGrayscale (width * height) frame).data j
          - (loadPrev (storePrev (toGrayscale (width * height) frame))).data j|) i
      = 0 := by
    intro i _
    have hfun : (fun j => |(toGrayscale (width * height) frame).data j
        - (loadPrev (storePrev (toGrayscale (width * height) frame))).data j|)
        = fun _ => (0 : ℚ) := funext fun j => hdiff j
    rw [hfun]
    exact applyLaplacian_zero width height i
  rw [Finset.sum_congr rfl hsum]
  simp

/-- Counterexample to C1 as stated: two identical consecutive 3×3 frames,
black except for one pure red centre pixel, give a motion score of
49/114750 ≠ 0, because the stored previous frame is quantized to 8 bits. -/
theorem claim_C1_counterexample :
    motionScoreOnRepeat 3 3 testFrame = 49/114750 ∧ (49/114750 : ℚ) ≠ 0 := by
  constructor
  · have hgray : ∀ j : ℕ, (toGrayscale 9 testFrame).data j
        = if j = 4 then 299/1000 else 0 := by
      intro j
      by_cases hj : j = 4 <;> simp [toGrayscale, testFrame, hj] <;> norm_num
    have hfloor : (⌊(299/1000 : ℚ) * 255 + 1/2⌋ : ℤ) = 76 := by
      rw [Int.floor_eq_iff] <;> norm_num
    have hprev : ∀ j : ℕ, (loadPrev (storePrev (toGrayscale 9 testFrame))).data j
        = if j = 4 then 76/255 else 0 := by
      intro j
      by_cases hj : j = 4
      · subst hj
        simp only [loadPrev, storePrev, jsRound, clampByte, hgray 4, if_pos rfl,
          if_true]
        norm_num [hfloor]
      · simp only [loadPrev, storePrev, jsRound, clampByte, hgray j, hj, if_false]
        norm_num
    have hdiff : ∀ j : ℕ,
        |(toGrayscale 9 testFrame).data j
          - (loadPrev (storePrev (toGrayscale 9 testFrame))).data j|
        = if j = 4 then 49/51000 else 0 := by
      intro j
      rw [hgray j, hprev j]
      by_cases hj : j = 4 <;> simp [hj] <;> norm_num [abs_of_nonneg]
    rw [motionScoreOnRepeat, calculateMotionScore]
    rw [if_neg (by simp [toGrayscale, loadPrev, storePrev])]
    show (∑ i ∈ Finset.range (toGrayscale (3 * 3) testFrame).len, _) / _ = _
    rw [show (toGrayscale (3 * 3) testFrame).len = 9 from rfl,
      show toGrayscale (3 * 3) testFrame = toGrayscale 9 testFrame from rfl]
    rw [Finset.sum_range_succ, Finset.sum_range_succ, Finset.sum_range_succ,
      Finset.sum_range_succ, Finset.sum_range_succ, Finset.sum_range_succ,
      Finset.sum_range_succ, Finset.sum_range_succ, Finset.sum_range_succ,
      Finset.sum_range_zero]
    simp only [applyLaplacian]
    norm_num [hdiff]
    rw [abs_of_nonneg (by norm_num)]
    norm_num
  · norm_num

/-- Witness for the amended C1: a uniform gray frame (every pixel
`(128,128,128)`) repeated twice scores exactly 0. -/
theorem claim_C1_witness :
    motionScoreOnRepeat 3 3 (fun _ => (128, 128, 128)) = 0 :=
  claim_C1 3 3 (fun _ => (128, 128, 128)) fun i =>
    ⟨128, by norm_num, by norm_num [toGrayscale]⟩

theorem motionAlertFires_iff (cooldownMs : ℤ) (threshold : ℚ)
    (lastAlertTime now : ℤ) (score : ℚ) :
    motionAlertFires cooldownMs threshold lastAlertTime now score = true ↔
      threshold < score ∧ cooldownMs < now - lastAlertTime := by
  unfold motionAlertFires
  split <;> simp_all

/-- Claim C3, amended: on a processed tick while not paused, the motion
analyzer fires an alert iff the motion score strictly exceeds the threshold
AND the elapsed time since the last alert strictly exceeds the cooldown (the
code compares with `>`, not `≥`). -/
theorem claim_C3 (cooldownMs : ℤ) (threshold : ℚ) (lastAlertTime now : ℤ)
    (score : ℚ) :
    motionAlertFires cooldownMs threshold lastAlertTime now score = true ↔
      threshold < score ∧ cooldownMs < now - lastAlertTime :=
  motionAlertFires_iff cooldownMs threshold lastAlertTime now score

/-- Counterexample to C3 as stated: with the default cooldown of 2000 ms, a
score of 1 above a threshold of 1/20, and exactly 2000 ms elapsed since the
last alert, the claimed condition (score above threshold and elapsed ≥
cooldown) holds, yet the code does not fire. -/
theorem claim_C3_counterexample :
    motionAlertFires 2000 (1/20) 0 2000 1 = false ∧
      ((1/20 : ℚ) < 1 ∧ (2000 : ℤ) ≤ 2000 - 0) := by
  refine ⟨?_, by norm_num⟩
  unfold motionAlertFires
  rw [if_neg]
  intro h
  omega

/-- Claim C10: on any tick that arrives while the motion analyzer is paused
no callback at all is invoked (neither `onMotionLevel` nor `onMotionAlert`),
and `setPaused(true)` discards the stored previous frame and resets the
stabilization counter to 0. -/
theorem claim_C10 (cfg : MotionConfig) (s : MotionState) (videoReady : Bool)
    (frame : ℕ → Pixel) (now : ℤ) (hp : s.paused = true) :
    (motionTick cfg s videoReady frame now).2 = [] ∧
    (motionSetPaused s true).prev = none ∧
    (motionSetPaused s true).frameCount = 0 := by
  refine ⟨?_, rfl, rfl⟩
  unfold motionTick
  split
  · rfl
  · dsimp only
    split
    · rfl
    · rw [if_pos (Or.inr hp)]

/-- Witness for C10: a concrete paused state on a tick that passes the skip
filter emits no callback, and pausing clears the previous frame and the
stabilization counter. -/
theorem claim_C10_witness :
    (motionTick defaultMotionConfig ⟨none, 0, 2, 1/20, true, 0, true⟩ true
      (fun _ => (0, 0, 0)) 0).2 = [] ∧
    (motionSetPaused ⟨none, 0, 2, 1/20, true, 0, true⟩ true).prev = none ∧
    (motionSetPaused ⟨none, 0, 2, 1/20, true, 0, true⟩ true).frameCount = 0 :=
  claim_C10 defaultMotionConfig ⟨none, 0, 2, 1/20, true, 0, true⟩ true
    (fun _ => (0, 0, 0)) 0 rfl

/-! ### Claim C2: alert cooldown separation -/

theorem motionApplyCtrl_lastAlertTime (s : MotionState) (c : MotionCtrl) :
    (motionApplyCtrl s c).lastAlertTime = s.lastAlertTime := by
  cases c with
  | setThreshold x => rfl
  | setPaused p => cases p <;> rfl

theorem motionCtrls_lastAlertTime (cs : List MotionCtrl) (s : MotionState) :
    (cs.foldl motionApplyCtrl s).lastAlertTime = s.lastAlertTime := by
  induction cs generalizing s with
  | nil => rfl
  | cons c rest ih => rw [List.foldl_cons, ih, motionApplyCtrl_lastAlertTime]

theorem motionTick_alert (cfg : MotionConfig) (s : MotionState) (vr : Bool)
    (frame : ℕ → Pixel) (now : ℤ) :
    (MotionCb.alert ∈ (motionTick cfg s vr frame now).2 →
      cfg.alertCooldownMs < now - s.lastAlertTime ∧
      (motionTick cfg s vr frame now).1.lastAlertTime = now) ∧
    (MotionCb.alert ∉ (motionTick cfg s vr frame now).2 →
      (motionTick cfg s vr frame now).1.lastAlertTime = s.lastAlertTime) := by
  unfold motionTick
  split
  · simp
  · dsimp only
    split
    · simp
    · split
      · simp
      · split
        · constructor
          · intro h
            simp at h
          · intro _
            rfl
        · rename_i hprev
          cases hsp : s.prev with
          | none =>
              constructor
              · intro h
                simp at h
              · intro _
                rfl
          | some pb =>
              dsimp only
              split
              · rename_i hfire
                constructor
                · intro _
                  exact ⟨((motionAlertFires_iff _ _ _ _ _).mp hfire).2, rfl⟩
                · intro h
                  exact absurd (by simp) h
              · constructor
                · intro h
                  simp at h
                · intro _
                  rfl

theorem motionRunAlerts_lb (cfg : MotionConfig) (hcd : 0 ≤ cfg.alertCooldownMs)
    (inputs : List MotionInput) :
    ∀ (s : MotionState) (t : ℤ), t ∈ motionRunAlerts cfg s inputs →
      s.lastAlertTime + cfg.alertCooldownMs < t := by
  induction inputs with
  | nil =>
      intro s t ht
      simp [motionRunAlerts] at ht
  | cons inp rest ih =>
      intro s t ht
      simp only [motionRunAlerts, List.mem_append] at ht
      have hs1 : (inp.ctrls.foldl motionApplyCtrl s).lastAlertTime
          = s.lastAlertTime := motionCtrls_lastAlertTime _ _
      by_cases halert : MotionCb.alert ∈ (motionTick cfg
          (inp.ctrls.foldl motionApplyCtrl s) inp.videoReady inp.frame inp.now).2
      · have hg := (motionTick_alert cfg _ inp.videoReady inp.frame inp.now).1 halert
        have h3 : cfg.alertCooldownMs < inp.now - s.lastAlertTime := by
          rw [← hs1]
          exact hg.1
        rcases ht with ht | ht
        · rw [if_pos halert] at ht
          have := List.mem_singleton.mp ht
          subst this
          linarith
        · have h2 := ih _ t ht
          rw [hg.2] at h2
          linarith
      · rcases ht with ht | ht
        · rw [if_neg halert] at ht
          simp at ht
        · have h2 := ih _ t ht
          rw [(motionTick_alert cfg _ inp.videoReady inp.frame inp.now).2 halert,
            hs1] at h2
          exact h2

theorem motionRunAlerts_pairwise (cfg : MotionConfig)
    (hcd : 0 ≤ cfg.alertCooldownMs) (inputs : List MotionInput) :
    ∀ s : MotionState, List.Pairwise (fun a b => a + cfg.alertCooldownMs ≤ b)
      (motionRunAlerts cfg s inputs) := by
  induction inputs with
  | nil =>
      intro s
      simp [motionRunAlerts]
  | cons inp rest ih =>
      intro s
      simp only [motionRunAlerts]
      by_cases halert : MotionCb.alert ∈ (motionTick cfg
          (inp.ctrls.foldl motionApplyCtrl s) inp.videoReady inp.frame inp.now).2
      · rw [if_pos halert, List.singleton_append]
        refine List.Pairwise.cons ?_ (ih _)
        intro b hb
        have hg := (motionTick_alert cfg _ inp.videoReady inp.frame inp.now).1 halert
        have hlb := motionRunAlerts_lb cfg hcd rest _ b hb
        rw [hg.2] at hlb
        linarith
      · rw [if_neg halert, List.nil_append]
        exact ih _

theorem audioAlertFires_iff (cooldownMs : ℤ) (threshold level : ℝ)
    (paused : Bool) (lastAlertTime now : ℤ) :
    audioAlertFires cooldownMs threshold level paused lastAlertTime now = true ↔
      paused = false ∧ threshold ≤ level ∧ cooldownMs ≤ now - lastAlertTime := by
  unfold audioAlertFires
  split <;> simp_all

theorem audioApplyCtrl_lastAlertTime (s : AudioState) (c : AudioCtrl) :
    (audioApplyCtrl s c).lastAlertTime = s.lastAlertTime := by
  cases c <;> rfl

theorem audioCtrls_lastAlertTime (cs : List AudioCtrl) (s : AudioState) :
    (cs.foldl audioApplyCtrl s).lastAlertTime = s.lastAlertTime := by
  induction cs generalizing s with
  | nil => rfl
  | cons c rest ih => rw [List.foldl_cons, ih, audioApplyCtrl_lastAlertTime]

theorem audioTick_alert (cooldownMs : ℤ) (binCount : ℕ) (w : ℕ → ℝ)
    (s : AudioState) (m : ℕ → ℕ) (now : ℤ) :
    ((audioTick cooldownMs binCount w s m now).2.2 = true →
      cooldownMs ≤ now - s.lastAlertTime ∧
      (audioTick cooldownMs binCount w s m now).1.lastAlertTime = now) ∧
    ((audioTick cooldownMs binCount w s m now).2.2 = false →
      (audioTick cooldownMs binCount w s m now).1.lastAlertTime
        = s.lastAlertTime) := by
  unfold audioTick
  dsimp only
  split
  · rename_i hfire
    constructor
    · intro _
      exact ⟨((audioAlertFires_iff _ _ _ _ _ _).mp hfire).2.2, rfl⟩
    · intro h
      simp at h
  · constructor
    · intro h
      simp at h
    · intro _
      rfl

theorem audioRunAlerts_lb (cooldownMs : ℤ) (binCount : ℕ) (w : ℕ → ℝ)
    (hcd : 0 ≤ cooldownMs) (inputs : List AudioInput) :
    ∀ (s : AudioState) (t : ℤ),
      t ∈ audioRunAlerts cooldownMs binCount w s inputs →
      s.lastAlertTime + cooldownMs ≤ t := by
  induction inputs with
  | nil =>
      intro s t ht
      simp [audioRunAlerts] at ht
  | cons inp rest ih =>
      intro s t ht
      simp only [audioRunAlerts, List.mem_append] at ht
      have hs1 : (inp.ctrls.foldl audioApplyCtrl s).lastAlertTime
          = s.lastAlertTime := audioCtrls_lastAlertTime _ _
      by_cases hfire : (audioTick cooldownMs binCount w
          (inp.ctrls.foldl audioApplyCtrl s) inp.spectrum inp.now).2.2 = true
      · have hg := (audioTick_alert cooldownMs binCount w _ inp.spectrum inp.now).1
          hfire
        have h3 : cooldownMs ≤ inp.now - s.lastAlertTime := by
          rw [← hs1]
          exact hg.1
        rcases ht with ht | ht
        · rw [if_pos hfire] at ht
          have := List.mem_singleton.mp ht
          subst this
          linarith
        · have h2 := ih _ t ht
          rw [hg.2] at h2
          linarith
      · rcases ht with ht | ht
        · rw [if_neg hfire] at ht
          simp at ht
        · have h2 := ih _ t ht
          rw [(audioTick_alert cooldownMs binCount w _ inp.spectrum inp.now).2
            (Bool.not_eq_true _ ▸ hfire), hs1] at h2
          exact h2

theorem audioRunAlerts_pairwise (cooldownMs : ℤ) (binCount : ℕ) (w : ℕ → ℝ)
    (hcd : 0 ≤ cooldownMs) (inputs : List AudioInput) :
    ∀ s : AudioState, List.Pairwise (fun a b => a + cooldownMs ≤ b)
      (audioRunAlerts cooldownMs binCount w s inputs) := by
  induction inputs with
  | nil =>
      intro s
      simp [audioRunAlerts]
  | cons inp rest ih =>
      intro s
      simp only [audioRunAlerts]
      by_cases hfire : (audioTick cooldownMs binCount w
          (inp.ctrls.foldl audioApplyCtrl s) inp.spectrum inp.now).2.2 = true
      · rw [if_pos hfire, List.singleton_append]
        refine List.Pairwise.cons ?_ (ih _)
        intro b hb
        have hg := (audioTick_alert cooldownMs binCount w _ inp.spectrum inp.now).1
          hfire
        have hlb := audioRunAlerts_lb cooldownMs binCount w hcd rest _ b hb
        rw [hg.2] at hlb
        linarith
      · rw [if_neg hfire, List.nil_append]
        exact ih _

/-- Claim C2: along any run of either detector, with any interleaved
runtime threshold/pause changes, any two alert firing times on the same
channel are at least the configured cooldown apart. -/
theorem claim_C2 (cfg : MotionConfig) (ms : MotionState)
    (minputs : List MotionInput) (cooldownMs : ℤ) (binCount : ℕ) (w : ℕ → ℝ)
    (as0 : AudioState) (ainputs : List AudioInput)
    (hm : 0 ≤ cfg.alertCooldownMs) (ha : 0 ≤ cooldownMs) :
    List.Pairwise (fun a b => a + cfg.alertCooldownMs ≤ b)
      (motionRunAlerts cfg ms minputs) ∧
    List.Pairwise (fun a b => a + cooldownMs ≤ b)
      (audioRunAlerts cooldownMs binCount w as0 ainputs) :=
  ⟨motionRunAlerts_pairwise cfg hm minputs ms,
   audioRunAlerts_pairwise cooldownMs binCount w ha ainputs as0⟩

/-- Witness for C2 with the default cooldowns and concrete runs. -/
theorem claim_C2_witness :
    List.Pairwise (fun a b => a + defaultMotionConfig.alertCooldownMs ≤ b)
      (motionRunAlerts defaultMotionConfig motionInit []) ∧
    List.Pairwise (fun a b => a + 2000 ≤ b)
      (audioRunAlerts 2000 4 (fun _ => 1) ⟨1/2, false, 0⟩
        [⟨[], fun _ => 0, 5⟩]) :=
  claim_C2 defaultMotionConfig motionInit [] 2000 4 (fun _ => 1)
    ⟨1/2, false, 0⟩ [⟨[], fun _ => 0, 5⟩]
    (by norm_num [defaultMotionConfig]) (by norm_num)

/-! ### Claim C6: level vs unweighted RMS -/

theorem computeAWeightGain_nonneg (f : ℝ) : 0 ≤ computeAWeightGain f := by
  unfold computeAWeightGain
  split
  · exact le_refl 0
  · exact le_of_lt (Real.rpow_pos_of_pos (by norm_num) _)

theorem computeAWeightGain_eq (f : ℝ) (hf : 10 ≤ f) :
    computeAWeightGain f =
      (12194 * 12194 * (f * f * (f * f))
        / ((f * f + 20.6 * 20.6)
          * Real.sqrt ((f * f + 107.7 * 107.7) * (f * f + 737.9 * 737.9))
          * (f * f + 12194 * 12194)))
      * (10 : ℝ) ^ ((1 : ℝ)/10) := by
  unfold computeAWeightGain
  rw [if_neg (not_lt.mpr hf)]
  dsimp only
  have hfpos : (0 : ℝ) < f := lt_of_lt_of_le (by norm_num) hf
  have hQ : (0 : ℝ) < (f * f + 107.7 * 107.7) * (f * f + 737.9 * 737.9) := by
    positivity
  have hx : (0 : ℝ) < 12194 * 12194 * (f * f * (f * f))
      / ((f * f + 20.6 * 20.6)
        * Real.sqrt ((f * f + 107.7 * 107.7) * (f * f + 737.9 * 737.9))
        * (f * f + 12194 * 12194)) := by
    apply div_pos (by positivity)
    exact mul_pos (mul_pos (by positivity) (Real.sqrt_pos.mpr hQ)) (by positivity)
  rw [show (20 * Real.logb 10 (12194 * 12194 * (f * f * (f * f))
      / ((f * f + 20.6 * 20.6)
        * Real.sqrt ((f * f + 107.7 * 107.7) * (f * f + 737.9 * 737.9))
        * (f * f + 12194 * 12194))) + 2.0) / 20
    = Real.logb 10 (12194 * 12194 * (f * f * (f * f))
      / ((f * f + 20.6 * 20.6)
        * Real.sqrt ((f * f + 107.7 * 107.7) * (f * f + 737.9 * 737.9))
        * (f * f + 12194 * 12194))) + (1 : ℝ)/10 by ring]
  rw [Real.rpow_add (by norm_num : (0 : ℝ) < 10),
    Real.rpow_logb (by norm_num) (by norm_num) hx]

theorem computeAWeightGain_pos (f : ℝ) (hf : 10 ≤ f) :
    0 < computeAWeightGain f := by
  rw [computeAWeightGain_eq f hf]
  have hfpos : (0 : ℝ) < f := lt_of_lt_of_le (by norm_num) hf
  have hQ : (0 : ℝ) < (f * f + 107.7 * 107.7) * (f * f + 737.9 * 737.9) := by
    positivity
  refine mul_pos (div_pos (by positivity) ?_) (Real.rpow_pos_of_pos (by norm_num) _)
  exact mul_pos (mul_pos (by positivity) (Real.sqrt_pos.mpr hQ)) (by positivity)

theorem computeAWeightGain_mono_at_bins :
    computeAWeightGain 46.875 < computeAWeightGain 2015.625 := by
  rw [computeAWeightGain_eq 46.875 (by norm_num),
    computeAWeightGain_eq 2015.625 (by norm_num)]
  have hc : (0 : ℝ) < (10 : ℝ) ^ ((1 : ℝ)/10) :=
    Real.rpow_pos_of_pos (by norm_num) _
  apply mul_lt_mul_of_pos_right ?_ hc
  have hQ0 : (0 : ℝ)
      < (46.875 * 46.875 + 107.7 * 107.7) * (46.875 * 46.875 + 737.9 * 737.9) := by
    norm_num
  have hQ21 : (0 : ℝ)
      < (2015.625 * 2015.625 + 107.7 * 107.7)
        * (2015.625 * 2015.625 + 737.9 * 737.9) := by
    norm_num
  have hs0 : (80000 : ℝ) < Real.sqrt
      ((46.875 * 46.875 + 107.7 * 107.7) * (46.875 * 46.875 + 737.9 * 737.9)) := by
    rw [show (80000 : ℝ) = Real.sqrt (80000 ^ 2) from
      (Real.sqrt_sq (by norm_num)).symm]
    apply Real.sqrt_lt_sqrt (by norm_num)
    norm_num
  have hs21 : Real.sqrt ((2015.625 * 2015.625 + 107.7 * 107.7)
      * (2015.625 * 2015.625 + 737.9 * 737.9)) < 4400000 := by
    rw [show (4400000 : ℝ) = Real.sqrt (4400000 ^ 2) from
      (Real.sqrt_sq (by norm_num)).symm]
    apply Real.sqrt_lt_sqrt (le_of_lt hQ21)
    norm_num
  have hd0 : (0 : ℝ) < (46.875 * 46.875 + 20.6 * 20.6)
      * Real.sqrt ((46.875 * 46.875 + 107.7 * 107.7)
        * (46.875 * 46.875 + 737.9 * 737.9))
      * (46.875 * 46.875 + 12194 * 12194) :=
    mul_pos (mul_pos (by norm_num) (Real.sqrt_pos.mpr hQ0)) (by norm_num)
  have hd21 : (0 : ℝ) < (2015.625 * 2015.625 + 20.6 * 20.6)
      * Real.sqrt ((2015.625 * 2015.625 + 107.7 * 107.7)
        * (2015.625 * 2015.625 + 737.9 * 737.9))
      * (2015.625 * 2015.625 + 12194 * 12194) :=
    mul_pos (mul_pos (by norm_num) (Real.sqrt_pos.mpr hQ21)) (by norm_num)
  rw [div_lt_div_iff hd0 hd21]
  calc 12194 * 12194 * (46.875 * 46.875 * (46.875 * 46.875))
        * ((2015.625 * 2015.625 + 20.6 * 20.6)
          * Real.sqrt ((2015.625 * 2015.625 + 107.7 * 107.7)
            * (2015.625 * 2015.625 + 737.9 * 737.9))
          * (2015.625 * 2015.625 + 12194 * 12194))
      = (12194 * 12194 * (46.875 * 46.875 * (46.875 * 46.875))
          * (2015.625 * 2015.625 + 20.6 * 20.6)
          * (2015.625 * 2015.625 + 12194 * 12194))
        * Real.sqrt ((2015.625 * 2015.625 + 107.7 * 107.7)
          * (2015.625 * 2015.625 + 737.9 * 737.9)) := by
        ring
    _ < (12194 * 12194 * (46.875 * 46.875 * (46.875 * 46.875))
          * (2015.625 * 2015.625 + 20.6 * 20.6)
          * (2015.625 * 2015.625 + 12194 * 12194)) * 4400000 := by
        apply mul_lt_mul_of_pos_left hs21 (by norm_num)
    _ ≤ (12194 * 12194 * (2015.625 * 2015.625 * (2015.625 * 2015.625))
          * (46.875 * 46.875 + 20.6 * 20.6)
          * (46.875 * 46.875 + 12194 * 12194)) * 80000 := by
        norm_num
    _ < (12194 * 12194 * (2015.625 * 2015.625 * (2015.625 * 2015.625))
          * (46.875 * 46.875 + 20.6 * 20.6)
          * (46.875 * 46.875 + 12194 * 12194))
        * Real.sqrt ((46.875 * 46.875 + 107.7 * 107.7)
          * (46.875 * 46.875 + 737.9 * 737.9)) := by
        apply mul_lt_mul_of_pos_left hs0 (by norm_num)
    _ = 12194 * 12194 * (2015.625 * 2015.625 * (2015.625 * 2015.625))
        * ((46.875 * 46.875 + 20.6 * 20.6)
          * Real.sqrt ((46.875 * 46.875 + 107.7 * 107.7)
            * (46.875 * 46.875 + 737.9 * 737.9))
          * (46.875 * 46.875 + 12194 * 12194)) := by
        ring

theorem spike_weighted_sum (n j : ℕ) (hj : j < n) (w : ℕ → ℝ) :
    ∑ i ∈ Finset.range n,
      ((spikeSpectrum j i : ℝ) / 255) * ((spikeSpectrum j i : ℝ) / 255) * w i
      = (51/255) * (51/255) * w j := by
  rw [Finset.sum_eq_single j]
  · simp [spikeSpectrum]
  · intro b _ hb
    simp [spikeSpectrum, hb]
  · intro h
    exact absurd (Finset.mem_range.mpr hj) h

theorem spike_sq_sum (n j : ℕ) (hj : j < n) :
    ∑ i ∈ Finset.range n,
      ((spikeSpectrum j i : ℝ) / 255) * ((spikeSpectrum j i : ℝ) / 255)
      = (51/255) * (51/255) := by
  rw [Finset.sum_eq_single j]
  · simp [spikeSpectrum]
  · intro b _ hb
    simp [spikeSpectrum, hb]
  · intro h
    exact absurd (Finset.mem_range.mpr hj) h

theorem aW48k_0 :
    precomputeAWeights 256 48000 512 0 = computeAWeightGain 46.875 := by
  unfold precomputeAWeights
  rw [if_pos (by norm_num)]
  norm_num

theorem aW48k_21 :
    precomputeAWeights 256 48000 512 21 = computeAWeightGain 2015.625 := by
  unfold precomputeAWeights
  rw [if_pos (by norm_num)]
  norm_num

theorem aW48k_nonneg (i : ℕ) : 0 ≤ precomputeAWeights 256 48000 512 i := by
  unfold precomputeAWeights
  split
  · exact computeAWeightGain_nonneg _
  · exact le_refl 0

theorem aW48k_21_pos : 0 < precomputeAWeights 256 48000 512 21 := by
  rw [aW48k_21]
  exact computeAWeightGain_pos _ (by norm_num)

/-- Counterexample to C6 as stated: at a 48 kHz sample rate with the default
A-weighting, two spectra of equal unweighted RMS — one spiking in the heavily
attenuated lowest bin (≈47 Hz), one spiking in a mid-frequency bin
(≈2016 Hz) — produce strictly different levels, so the emitted level is not
monotone in the unweighted RMS. -/
theorem claim_C6_counterexample :
    unweightedRms 256 (spikeSpectrum 21) ≤ unweightedRms 256 (spikeSpectrum 0) ∧
    audioLevel 256 (precomputeAWeights 256 48000 512) (spikeSpectrum 0)
      < audioLevel 256 (precomputeAWeights 256 48000 512) (spikeSpectrum 21) := by
  constructor
  · unfold unweightedRms
    rw [spike_sq_sum 256 21 (by norm_num), spike_sq_sum 256 0 (by norm_num)]
  · have h01 : precomputeAWeights 256 48000 512 0
        < precomputeAWeights 256 48000 512 21 := by
      rw [aW48k_0, aW48k_21]
      exact computeAWeightGain_mono_at_bins
    have hWtot21 : precomputeAWeights 256 48000 512 21
        ≤ ∑ i ∈ Finset.range 256, precomputeAWeights 256 48000 512 i :=
      Finset.single_le_sum (fun i _ => aW48k_nonneg i)
        (Finset.mem_range.mpr (by norm_num))
    have hWtot0 : precomputeAWeights 256 48000 512 0
        ≤ ∑ i ∈ Finset.range 256, precomputeAWeights 256 48000 512 i :=
      Finset.single_le_sum (fun i _ => aW48k_nonneg i)
        (Finset.mem_range.mpr (by norm_num))
    have hWtotpos :
        0 < ∑ i ∈ Finset.range 256, precomputeAWeights 256 48000 512 i :=
      lt_of_lt_of_le aW48k_21_pos hWtot21
    unfold audioLevel
    dsimp only
    rw [spike_weighted_sum 256 0 (by norm_num), spike_weighted_sum 256 21 (by norm_num),
      if_neg (ne_of_gt hWtotpos)]
    have hu1 : Real.sqrt ((51/255) * (51/255) * precomputeAWeights 256 48000 512 0
        / ∑ i ∈ Finset.range 256, precomputeAWeights 256 48000 512 i) * 2.5 < 1 := by
      have hle : (51/255) * (51/255) * precomputeAWeights 256 48000 512 0
          / (∑ i ∈ Finset.range 256, precomputeAWeights 256 48000 512 i)
          ≤ (51/255) * (51/255) := by
        rw [div_le_iff hWtotpos]
        exact mul_le_mul_of_nonneg_left hWtot0 (by norm_num)
      have hs := Real.sqrt_le_sqrt hle
      rw [Real.sqrt_mul_self (by norm_num : (0:ℝ) ≤ 51/255)] at hs
      nlinarith
    have huv : Real.sqrt ((51/255) * (51/255) * precomputeAWeights 256 48000 512 0
          / ∑ i ∈ Finset.range 256, precomputeAWeights 256 48000 512 i) * 2.5
        < Real.sqrt ((51/255) * (51/255) * precomputeAWeights 256 48000 512 21
          / ∑ i ∈ Finset.range 256, precomputeAWeights 256 48000 512 i) * 2.5 := by
      apply mul_lt_mul_of_pos_right ?_ (by norm_num)
      apply Real.sqrt_lt_sqrt
      · exact div_nonneg (mul_nonneg (by norm_num) (aW48k_nonneg 0))
          (le_of_lt hWtotpos)
      · rw [div_lt_div_iff hWtotpos hWtotpos]
        exact mul_lt_mul_of_pos_right
          (mul_lt_mul_of_pos_left h01 (by norm_num)) hWtotpos
    rw [min_eq_right (le_of_lt hu1)]
    exact lt_min hu1 huv

/-- Claim C6, amended: the emitted level is monotone non-decreasing in the
weighted RMS; in particular with weighting disabled (all weights 1, the
`useAWeighting = false` path) it is monotone non-decreasing in the unweighted
RMS of the spectrum.  With the non-constant A-weighting enabled this fails. -/
theorem claim_C6 (n : ℕ) (a b : ℕ → ℕ)
    (h : unweightedRms n a ≤ unweightedRms n b) :
    audioLevel n (fun _ => 1) a ≤ audioLevel n (fun _ => 1) b := by
  unfold audioLevel
  dsimp only
  by_cases hn : n = 0
  · subst hn
    simp
  · have hsum1 : (∑ _i ∈ Finset.range n, (1 : ℝ)) = (n : ℝ) := by simp
    have hsa : (∑ i ∈ Finset.range n,
        ((a i : ℝ) / 255) * ((a i : ℝ) / 255) * 1)
        = ∑ i ∈ Finset.range n, ((a i : ℝ) / 255) * ((a i : ℝ) / 255) := by
      simp
    have hsb : (∑ i ∈ Finset.range n,
        ((b i : ℝ) / 255) * ((b i : ℝ) / 255) * 1)
        = ∑ i ∈ Finset.range n, ((b i : ℝ) / 255) * ((b i : ℝ) / 255) := by
      simp
    rw [hsum1, hsa, hsb, if_neg (Nat.cast_ne_zero.mpr hn)]
    unfold unweightedRms at h
    exact min_le_min (le_refl 1) (mul_le_mul_of_nonneg_right h (by norm_num))

/-- Witness for the amended C6 at concrete equal spectra. -/
theorem claim_C6_witness :
    audioLevel 4 (fun _ => 1) (fun _ => 0) ≤ audioLevel 4 (fun _ => 1) (fun _ => 0) :=
  claim_C6 4 (fun _ => 0) (fun _ => 0) (le_refl _)

end PeerABoo
